import Mathlib

/-!
Verification of the DNS resolver core in chrome/content/dns.js.

The JavaScript strings that carry DNS wire data hold one byte per UTF-16
code unit, so a wire string is modelled as a list of natural numbers
(each below 65536, in practice below 256).  An out-of-range charCodeAt
returns NaN in JavaScript; the inputs exercised by the theorems below
stay in range, and the model returns 0 there.

Nonterminating source behaviour (the unbounded pointer recursion in
DNS_readDomain) is modelled with an explicit fuel argument; exhausted
fuel yields none, and a result that is none for every fuel corresponds
to divergence of the source.
-/

/-- charCodeAt of the source: the code unit at index i, 0 out of range. -/
def charCodeAt (s : List Nat) (i : Nat) : Nat :=
  (s.drop i).headD 0

/-- str.substr(i, len) of the source. -/
def substr (s : List Nat) (i len : Nat) : List Nat :=
  (s.drop i).take len

/-- DNS_strToWord: charCodeAt(1) + (charCodeAt(0) << 8). -/
def DNS_strToWord (s : List Nat) : Nat :=
  charCodeAt s 1 + charCodeAt s 0 * 256

/-- DNS_strToOctet: charCodeAt(0). -/
def DNS_strToOctet (s : List Nat) : Nat :=
  charCodeAt s 0

/-- DNS_octetToStr: String.fromCharCode truncates to a 16-bit code unit. -/
def DNS_octetToStr (octet : Nat) : List Nat :=
  [octet % 65536]

/-- DNS_wordToStr: high byte then low byte. -/
def DNS_wordToStr (word : Nat) : List Nat :=
  DNS_octetToStr (word / 256 % 256) ++ DNS_octetToStr (word % 256)

/-- Decimal digit characters of a byte value (JavaScript number-to-string
for the values 0..255 that occur in dotted quads); 3 digits suffice. -/
def decDigits : Nat → Nat → List Nat
  | 0, _ => []
  | f + 1, n => if n < 10 then [48 + n] else decDigits f (n / 10) ++ [48 + n % 10]

def decChars (n : Nat) : List Nat := decDigits 3 n

/-- The label/pointer loop of DNS_readDomain (source lines 561-590).
ctr is the loop counter (starts at 20 and only bounds this one call);
rp is the recursive pointer call, which the source makes with a fresh
counter of 20 and no global bound.  Returns the domain bytes and the
index after the name. -/
def readLabels (str : List Nat) (rp : Nat → Option (List Nat × Nat)) :
    Nat → Nat → List Nat → Option (List Nat × Nat)
  | 0, idx, acc => some (acc, idx)
  | ctr + 1, idx, acc =>
    let l := charCodeAt str idx
    if l = 0 then some (acc, idx + 1)
    else
      let acc2 := if acc.isEmpty then acc else acc ++ [46]
      if l / 64 = 3 then
        match rp ((l % 64) * 256 + charCodeAt str (idx + 1)) with
        | none => none
        | some (sub, _) => some (acc2 ++ sub, idx + 2)
      else
        readLabels str rp ctr (idx + 1 + l) (acc2 ++ substr str (idx + 1) l)

/-- DNS_readDomain: each call runs the loop with a fresh counter of 20;
fuel bounds only the pointer recursion depth, which the source leaves
unbounded (none for every fuel = the source diverges). -/
def DNS_readDomain (str : List Nat) : Nat → Nat → Option (List Nat × Nat)
  | 0, idx => readLabels str (fun _ => none) 20 idx []
  | fuel + 1, idx => readLabels str (fun p => DNS_readDomain str fuel p) 20 idx []

/-- The record types the library recognizes, plus the raw numeric type of
an unrecognized record (whose rec.type the source leaves as a number). -/
inductive RType
  | A | NS | CNAME | PTR | MX | TXT
  | num (n : Nat)
deriving DecidableEq, Repr

/-- The JavaScript value stored in an MX rddata.address slot: absent
(undefined, the state right after DNS_readRec since the source never
initializes it), null, or an array of dotted-quad strings. -/
inductive AddrVal
  | undef
  | null
  | arr (xs : List (List Nat))
deriving DecidableEq, Repr

/-- The JavaScript value stored in rec.rddata: a string, the MX object,
or undefined (unrecognized records never assign rddata). -/
inductive RDVal
  | str (s : List Nat)
  | mxObj (pref : Nat) (host : List Nat) (address : AddrVal)
  | undef
deriving DecidableEq, Repr

/-- A parsed resource record as DNS_readRec leaves it. -/
structure DnsRec where
  dom : List Nat
  type : RType
  cls : Nat
  ttl : Nat
  rdlen : Nat
  recognized : Bool
  rddata : RDVal
deriving DecidableEq, Repr

/-- The TXT fragment loop of DNS_readRec (counter 10): returns the
accumulated text, the cursor and the remaining rdlen. -/
def txtLoop (str : List Nat) : Nat → Nat → Nat → List Nat → List Nat × Nat × Nat
  | 0, idx, rdl, acc => (acc, idx, rdl)
  | c + 1, idx, rdl, acc =>
    if rdl = 0 then (acc, idx, rdl)
    else
      let tl := DNS_strToOctet (substr str idx 1)
      txtLoop str c (idx + 1 + tl) (rdl - 1 - tl) (acc ++ substr str (idx + 1) tl)

/-- DNS_readRec (source lines 592-643).  Note the source reads the TTL as
a 16-bit word yet advances the cursor 4 bytes, and unconditionally sets
the cursor to the position after the fixed fields plus rdlen at the end. -/
def DNS_readRec (str : List Nat) (fuel : Nat) (idx : Nat) : Option (DnsRec × Nat) :=
  match DNS_readDomain str fuel idx with
  | none => none
  | some (dom, i0) =>
    let t := DNS_strToWord (substr str i0 2)
    let cls := DNS_strToWord (substr str (i0 + 2) 2)
    let ttl := DNS_strToWord (substr str (i0 + 4) 2)
    let rdlen := DNS_strToWord (substr str (i0 + 8) 2)
    let i1 := i0 + 10
    let nexti := i1 + rdlen
    if t = 16 then
      let r := txtLoop str 10 i1 rdlen []
      some (⟨dom, .TXT, cls, ttl, r.2.2, true, .str r.1⟩, nexti)
    else if t = 1 then
      let q := substr str i1 rdlen
      let dotted := decChars (charCodeAt q 0) ++ 46 :: decChars (charCodeAt q 1) ++
        46 :: decChars (charCodeAt q 2) ++ 46 :: decChars (charCodeAt q 3)
      some (⟨dom, .A, cls, ttl, rdlen, true, .str dotted⟩, nexti)
    else if t = 15 then
      let pref := DNS_strToWord (substr str i1 2)
      match DNS_readDomain str fuel (i1 + 2) with
      | none => none
      | some (h, _) => some (⟨dom, .MX, cls, ttl, rdlen, true, .mxObj pref h .undef⟩, nexti)
    else if t = 2 then
      match DNS_readDomain str fuel i1 with
      | none => none
      | some (d, _) => some (⟨dom, .NS, cls, ttl, rdlen, true, .str d⟩, nexti)
    else if t = 12 then
      match DNS_readDomain str fuel i1 with
      | none => none
      | some (d, _) => some (⟨dom, .PTR, cls, ttl, rdlen, true, .str d⟩, nexti)
    else if t = 5 then
      some (⟨dom, .CNAME, cls, ttl, rdlen, true, .str []⟩, nexti)
    else
      some (⟨dom, .num t, cls, ttl, rdlen, false, .undef⟩, nexti)

/-- Outcome of a piece of source code that may throw (a JavaScript
exception escaping the library) or diverge (fuel exhaustion in the
model, standing for nontermination of the source). -/
inductive Res (α : Type)
  | div
  | thrown (msg : String)
  | ok (a : α)
deriving DecidableEq, Repr

def msgBadQcount : String := "Invalid response: Question section did not have exactly one record."
def msgBadAn : String := "Invalid response: Answer section had more than 128 records."
def msgBadAu : String := "Invalid response: Authority section had more than 128 records."
def msgBadAd : String := "Invalid response: Additional section had more than 128 records."
def msgUnrecognized : String := "Record type is not one that this library can understand."
def msgTypeErr : String := "TypeError: results[j].address is undefined"
def msgNullServer : String := "TypeError: server is null"

/-- One question entry (source lines 677-679): domain, type, class and
the cursor after the entry. -/
def decodeQuestionAt (str : List Nat) (fuel : Nat) (idx : Nat) :
    Option (List Nat × Nat × Nat × Nat) :=
  match DNS_readDomain str fuel idx with
  | none => none
  | some (dom, i2) =>
    some (dom, DNS_strToWord (substr str i2 2), DNS_strToWord (substr str (i2 + 2) 2), i2 + 4)

/-- The question section of a response message starts at offset 12. -/
def decodeQuestion (str : List Nat) (fuel : Nat) : Option (List Nat × Nat × Nat) :=
  (decodeQuestionAt str fuel 12).map (fun q => (q.1, q.2.1, q.2.2.1))

/-- The question loop of DNS_getRDData (the read values are discarded). -/
def readQuestionsLoop (str : List Nat) (fuel : Nat) : Nat → Nat → Option Nat
  | 0, idx => some idx
  | n + 1, idx =>
    match decodeQuestionAt str fuel idx with
    | none => none
    | some (_, _, _, i2) => readQuestionsLoop str fuel n i2

/-- The answer loop of DNS_getRDData: an unrecognized record throws,
CNAME records are skipped, the rddata of the rest is pushed. -/
def answersLoop (str : List Nat) (fuel : Nat) : Nat → Nat → List RDVal → Res (List RDVal × Nat)
  | 0, idx, acc => .ok (acc, idx)
  | n + 1, idx, acc =>
    match DNS_readRec str fuel idx with
    | none => .div
    | some (rec, idx2) =>
      if rec.recognized = false then .thrown msgUnrecognized
      else if rec.type = .CNAME then answersLoop str fuel n idx2 acc
      else answersLoop str fuel n idx2 (acc ++ [rec.rddata])

/-- The authority loop of DNS_getRDData: records are kept whole,
unrecognized ones included. -/
def authsLoop (str : List Nat) (fuel : Nat) : Nat → Nat → List DnsRec → Option (List DnsRec × Nat)
  | 0, idx, acc => some (acc, idx)
  | n + 1, idx, acc =>
    match DNS_readRec str fuel idx with
    | none => none
    | some (rec, idx2) => authsLoop str fuel n idx2 (acc ++ [rec])

/-- The body of the glue join (source lines 714-723) for one result slot.
The source tests results[j].address === null before initializing the
array, but DNS_readRec never sets address, so the slot holds undefined,
the strict comparison with null is false, and the subsequent
results[j].address[results[j].address.length] dereferences undefined
and throws a TypeError. -/
def decorateOne (dom payload : List Nat) (r : RDVal) : Res RDVal :=
  match r with
  | .mxObj p h addr =>
    if h ≠ [] ∧ h = dom then
      match (if addr = AddrVal.null then AddrVal.arr [] else addr) with
      | .arr xs => .ok (.mxObj p h (.arr (xs ++ [payload])))
      | _ => .thrown msgTypeErr
    else .ok (.mxObj p h addr)
  | r2 => .ok r2

/-- The inner j-loop over the results for one additional A record. -/
def decorateList (dom payload : List Nat) : List RDVal → Res (List RDVal)
  | [] => .ok []
  | r :: rs =>
    match decorateOne dom payload r with
    | .div => .div
    | .thrown m => .thrown m
    | .ok r2 =>
      match decorateList dom payload rs with
      | .div => .div
      | .thrown m => .thrown m
      | .ok rs2 => .ok (r2 :: rs2)

/-- The additional loop of DNS_getRDData: A records decorate matching MX
results, everything else is read and dropped. -/
def additionalLoop (str : List Nat) (fuel : Nat) : Nat → Nat → List RDVal → Res (List RDVal)
  | 0, _, results => .ok results
  | n + 1, idx, results =>
    match DNS_readRec str fuel idx with
    | none => .div
    | some (rec, idx2) =>
      match rec.type, rec.rddata with
      | .A, .str s =>
        match decorateList rec.dom s results with
        | .div => .div
        | .thrown m => .thrown m
        | .ok results2 => additionalLoop str fuel n idx2 results2
      | _, _ => additionalLoop str fuel n idx2 results

/-- The first authority of type NS whose rddata differs from the server
just queried (source lines 735-741). -/
def findNSAuth (server : List Nat) : List DnsRec → Option (List Nat)
  | [] => none
  | r :: rs =>
    match r.type, r.rddata with
    | .NS, .str d => if d ≠ server then some d else findNSAuth server rs
    | _, _ => findNSAuth server rs

/-- What DNS_getRDData does after parsing: deliver results, deliver null,
or recurse on an NS authority with hops+1 (the host, recordtype and
callback arguments only feed debug strings and the recursive call and
are threaded by the driver below). -/
inductive GetAction
  | deliver (rs : List RDVal)
  | deliverNull
  | recurse (ns : List Nat) (hops : Nat)
deriving DecidableEq, Repr

/-- DNS_getRDData (source lines 645-747) on a length-stripped message. -/
def DNS_getRDData (str : List Nat) (fuel : Nat) (server : List Nat) (hops : Nat) :
    Res GetAction :=
  let qcount := DNS_strToWord (substr str 4 2)
  let ancount := DNS_strToWord (substr str 6 2)
  let aucount := DNS_strToWord (substr str 8 2)
  let adcount := DNS_strToWord (substr str 10 2)
  if qcount ≠ 1 then .thrown msgBadQcount
  else if 128 < ancount then .thrown msgBadAn
  else if 128 < aucount then .thrown msgBadAu
  else if 128 < adcount then .thrown msgBadAd
  else
    match readQuestionsLoop str fuel qcount 12 with
    | none => .div
    | some i1 =>
      match answersLoop str fuel ancount i1 [] with
      | .div => .div
      | .thrown m => .thrown m
      | .ok (results, i2) =>
        match authsLoop str fuel aucount i2 [] with
        | none => .div
        | some (auths, i3) =>
          match additionalLoop str fuel adcount i3 results with
          | .div => .div
          | .thrown m => .thrown m
          | .ok results2 =>
            if 0 < results2.length then .ok (.deliver results2)
            else
              match findNSAuth server auths with
              | some ns => .ok (.recurse ns (hops + 1))
              | none => .ok .deliverNull

/-- The record types a caller may request; any other string makes
queryDNSRecursive throw before transmission and is not modelled. -/
inductive RecordType
  | A | NS | CNAME | PTR | MX | TXT
deriving DecidableEq, Repr

/-- QTYPE codes written by queryDNSRecursive (source lines 452-466). -/
def qtypeNum : RecordType → Nat
  | .A => 1
  | .NS => 2
  | .CNAME => 5
  | .PTR => 12
  | .MX => 15
  | .TXT => 16

/-- The literal two-character JavaScript string "00" that the source
prepends as the query ID (source line 438): ASCII digit zero twice. -/
def str00 : List Nat := [48, 48]

/-- The 12-byte query header (source lines 436-445). -/
def queryHeader : List Nat :=
  str00 ++ [1] ++ [0] ++ DNS_wordToStr 1 ++ DNS_wordToStr 0 ++ DNS_wordToStr 0 ++ DNS_wordToStr 0

/-- QNAME encoding: length-prefixed labels (source lines 447-450). -/
def qnameEnc : List (List Nat) → List Nat
  | [] => []
  | p :: t => DNS_octetToStr p.length ++ p ++ qnameEnc t

/-- The query message before the length prefix. -/
def buildQueryBody (host : List Nat) (rt : RecordType) : List Nat :=
  queryHeader ++ qnameEnc (host.splitOn 46) ++ DNS_octetToStr 0 ++
    DNS_wordToStr (qtypeNum rt) ++ DNS_wordToStr 1

/-- The full query with the 16-bit length prefix (source line 470). -/
def buildQuery (host : List Nat) (rt : RecordType) : List Nat :=
  DNS_wordToStr (buildQueryBody host rt).length ++ buildQueryBody host rt

/-- The listener state of queryDNSRecursive (source lines 472-545). -/
structure Listener where
  msgsize : Option Nat
  readcount : Nat
  responseHeader : List Nat
  responseBody : List Nat
  done : Bool
deriving DecidableEq, Repr

def initListener : Listener := ⟨none, 0, [], [], false⟩

/-- listener.process on one data chunk: returns the new state and, when
the framed message is complete, the length-stripped message that the
source hands to DNS_getRDData. -/
def processChunk (l : Listener) (data : List Nat) : Listener × Option (List Nat) :=
  if l.done then (l, none)
  else
    let rc := l.readcount + data.length
    let hdr := l.responseHeader ++ data.take (14 - l.responseHeader.length)
    let rest := data.drop (14 - l.responseHeader.length)
    if hdr.length = 14 then
      let ms := DNS_strToWord (substr hdr 0 2)
      let body := l.responseBody ++ rest
      if ms + 2 ≤ rc then (⟨some ms, rc, hdr.drop 2, body, true⟩, some (hdr.drop 2 ++ body))
      else (⟨some ms, rc, hdr, body, false⟩, none)
    else (⟨l.msgsize, rc, hdr, l.responseBody, false⟩, none)

/-- Feed the received chunks to the listener in order; processing stops
at the chunk that completes the message (the source closes the streams
then).  A final (data, none) outcome is the state in which the
stream-stop handler finds listener.done still false and reports an
incomplete response. -/
def runListener : Listener → List (List Nat) → Listener × Option (List Nat)
  | l, [] => (l, none)
  | l, c :: cs =>
    match processChunk l c with
    | (l2, some m) => (l2, some m)
    | (l2, none) => runListener l2 cs

/-- One nameserver entry of the pool, with its per-lookup alive flag. -/
structure ServerEntry where
  server : List Nat
  alive : Bool
deriving DecidableEq, Repr

/-- The first-alive scan of queryDNSRecursive (source lines 408-419),
returning index and entry. -/
def pickAlive : List ServerEntry → Option (Nat × ServerEntry)
  | [] => none
  | e :: es =>
    if e.alive then some (0, e)
    else (pickAlive es).map (fun p => (p.1 + 1, p.2))

/-- serverObj.alive = false (source line 505). -/
def markDead : List ServerEntry → Nat → List ServerEntry
  | [], _ => []
  | e :: es, 0 => { e with alive := false } :: es
  | e :: es, i + 1 => e :: markDead es i

/-- What the socket layer reports for one connection: a nonzero status
(the transport failed, no data) or a successfully closed stream that
delivered the given chunks.  The hostname:port split of source lines
548-553 is absorbed into this oracle, which is keyed by the full server
string. -/
inductive NetResult
  | err (status : Nat)
  | ok (chunks : List (List Nat))

/-- The error strings of DNS_STRINGS (an external locale file), as an
abstract error kind carrying the server it names. -/
inductive ErrMsg
  | noServerAlive
  | tooManyHops
  | connectionRefused (server : List Nat)
  | timedOut (server : List Nat)
  | serverError (server : List Nat)
  | incompleteResponse (server : List Nat)
deriving DecidableEq, Repr

/-- Components.results.NS_ERROR_NET_TIMEOUT = 0x804B000E. -/
def nsErrorNetTimeout : Nat := 2152398862

/-- The status dispatch of listener.finished (source lines 479-500),
reached only when servers is undefined. -/
def statusToErr (status : Nat) (server : List Nat) : ErrMsg :=
  if status = 2152398861 then .connectionRefused server
  else if status = 2152398868 then .timedOut server
  else if status = nsErrorNetTimeout then .timedOut server
  else .serverError server

/-- The observable outcome of one logical lookup: the callback invocation
(null with an optional error, or a result list), an escaped JavaScript
exception, or out of fuel (model artifact). -/
inductive QueryResult
  | cbNull (err : Option ErrMsg)
  | cbResults (rs : List RDVal)
  | thrown (msg : String)
  | div
deriving DecidableEq, Repr

/-- Instrumentation of the driver: one event per query actually sent
(pool pick or fixed referral server), plus the two kinds of internal
transition. -/
inductive QEvent
  | sentPool (i : Nat) (server : List Nat) (hops : Nat)
  | sentFixed (server : List Nat) (hops : Nat)
  | referral (fromHops toHops : Nat) (server : List Nat)
  | failover (hops : Nat)
deriving DecidableEq, Repr

/-- Interpretation of one completed transport exchange. -/
inductive RespOut
  | incomplete
  | parsed (r : Res GetAction)
deriving DecidableEq, Repr

/-- Run the listener over the chunks of a successfully closed stream and
parse the message if it completed. -/
def handleChunks (fuel : Nat) (srv : List Nat) (hops : Nat) (chunks : List (List Nat)) :
    RespOut :=
  match runListener initListener chunks with
  | (_, some m) => .parsed (DNS_getRDData m fuel srv hops)
  | (_, none) => .incomplete

/-- queryDNSRecursive (source lines 404-559 plus the recursion sites at
lines 508 and 738), driven by a network oracle net taking the server
string and the query bytes.  The callback is modelled by the returned
QueryResult; the returned list records the sends and transitions in
order.  Referral recursion (line 738) passes no servers argument, so
all descendants of a referral run with servers = none. -/
def queryDNSRecursive (net : List Nat → List Nat → NetResult) :
    Nat → Option (List Nat) → List Nat → RecordType → Nat → Option (List ServerEntry) →
    QueryResult × List QEvent
  | 0, _, _, _, _, _ => (.div, [])
  | fuel + 1, server, host, rt, hops, servers =>
    match servers with
    | some ss =>
      match pickAlive ss with
      | none => (.cbNull (some .noServerAlive), [])
      | some (i, e) =>
        if hops = 10 then (.cbNull (some .tooManyHops), [])
        else
          match net e.server (buildQuery host rt) with
          | .err _ =>
            let p := queryDNSRecursive net fuel none host rt hops (some (markDead ss i))
            (p.1, .sentPool i e.server hops :: .failover hops :: p.2)
          | .ok chunks =>
            match handleChunks (fuel + 1) e.server hops chunks with
            | .incomplete =>
              (.cbNull (some (.incompleteResponse e.server)), [.sentPool i e.server hops])
            | .parsed .div => (.div, [.sentPool i e.server hops])
            | .parsed (.thrown m) => (.thrown m, [.sentPool i e.server hops])
            | .parsed (.ok (.deliver rs)) => (.cbResults rs, [.sentPool i e.server hops])
            | .parsed (.ok .deliverNull) => (.cbNull none, [.sentPool i e.server hops])
            | .parsed (.ok (.recurse ns h2)) =>
              let p := queryDNSRecursive net fuel (some ns) host rt h2 none
              (p.1, .sentPool i e.server hops :: .referral hops h2 ns :: p.2)
    | none =>
      match server with
      | none => (.thrown msgNullServer, [])
      | some srv =>
        if hops = 10 then (.cbNull (some .tooManyHops), [])
        else
          match net srv (buildQuery host rt) with
          | .err status => (.cbNull (some (statusToErr status srv)), [.sentFixed srv hops])
          | .ok chunks =>
            match handleChunks (fuel + 1) srv hops chunks with
            | .incomplete =>
              (.cbNull (some (.incompleteResponse srv)), [.sentFixed srv hops])
            | .parsed .div => (.div, [.sentFixed srv hops])
            | .parsed (.thrown m) => (.thrown m, [.sentFixed srv hops])
            | .parsed (.ok (.deliver rs)) => (.cbResults rs, [.sentFixed srv hops])
            | .parsed (.ok .deliverNull) => (.cbNull none, [.sentFixed srv hops])
            | .parsed (.ok (.recurse ns h2)) =>
              let p := queryDNSRecursive net fuel (some ns) host rt h2 none
              (p.1, .sentFixed srv hops :: .referral hops h2 ns :: p.2)

/-- Indices of the pool sends in an event trace. -/
def poolIdxs : List QEvent → List Nat
  | [] => []
  | .sentPool i _ _ :: t => i :: poolIdxs t
  | _ :: t => poolIdxs t

/-- The entry at index j of the pool exists and is alive. -/
def isAliveAt (ss : List ServerEntry) (j : Nat) : Prop :=
  ∃ e, ss[j]? = some e ∧ e.alive = true

/-- Per-event form of the hop-bound invariant: sends happen at hop count
at most 9, referrals increment the hop count by exactly one and stay at
most 10, failovers keep it at most 10. -/
def evOk : QEvent → Bool
  | .sentPool _ _ h => h ≤ 9
  | .sentFixed _ h => h ≤ 9
  | .referral f t _ => t = f + 1 && t ≤ 10
  | .failover h => h ≤ 10

/-- Number of alive entries in a pool. -/
def aliveCount (ss : List ServerEntry) : Nat :=
  ss.countP (fun e => e.alive)

/-- A message whose first two bytes form a compression pointer to offset
0: reading a name at offset 0 chases the pointer back to itself. -/
def loopMsg : List Nat := [192, 0]

/-- A message holding a chain of 21 compression pointers (offset 2k
points to offset 2k+2) ending in the name "a" at offset 42. -/
def chainMsg : List Nat :=
  (List.range 21).foldr (fun k acc => 192 :: (2 * (k + 1)) :: acc) [1, 97, 0]

/-- A host of 20 one-byte labels "a.a. ... .a". -/
def host20 : List Nat :=
  97 :: (List.range 19).foldr (fun _ acc => 46 :: 97 :: acc) []

/-- MX response for name "b": one MX answer (preference 10, host "b") and
one additional A record 1.2.3.4 for "b". -/
def msgC3 : List Nat :=
  [0, 0, 129, 128, 0, 1, 0, 1, 0, 0, 0, 1] ++
  [1, 98, 0, 0, 15, 0, 1] ++
  [1, 98, 0, 0, 15, 0, 1, 0, 0, 0, 0, 0, 5, 0, 10, 1, 98, 0] ++
  [1, 98, 0, 0, 1, 0, 1, 0, 0, 0, 0, 0, 4, 1, 2, 3, 4]

/-- The same MX response without the additional section. -/
def msgC3b : List Nat :=
  [0, 0, 129, 128, 0, 1, 0, 1, 0, 0, 0, 0] ++
  [1, 98, 0, 0, 15, 0, 1] ++
  [1, 98, 0, 0, 15, 0, 1, 0, 0, 0, 0, 0, 5, 0, 10, 1, 98, 0]

/-- A single A resource record for "b" with rdata 9.9.9.9. -/
def wstrC10 : List Nat := [1, 98, 0, 0, 1, 0, 1, 0, 0, 0, 0, 0, 4, 9, 9, 9, 9]

/-- The record DNS_readRec parses out of wstrC10. -/
def recC10 : DnsRec := ⟨[98], .A, 1, 0, 4, true, .str [57, 46, 57, 46, 57, 46, 57]⟩

/-- An oracle on which every connection fails with some I/O status. -/
def errNet : List Nat → List Nat → NetResult := fun _ _ => NetResult.err 7

/-- An oracle on which every connection is refused (status 2152398861). -/
def refusedNet : List Nat → List Nat → NetResult := fun _ _ => NetResult.err 2152398861

/-- An oracle whose stream closes after a single byte. -/
def shortNet : List Nat → List Nat → NetResult := fun _ _ => NetResult.ok [[0]]

/-- A one-entry pool. -/
def poolA : List ServerEntry := [⟨[97], true⟩]

/-- A two-entry pool. -/
def poolAB : List ServerEntry := [⟨[97], true⟩, ⟨[98], true⟩]

/-- A response whose question count is 2. -/
def badQdMsg : List Nat := [0, 0, 0, 0, 0, 2, 0, 0, 0, 0, 0, 0]

/-- A response with one answer record of the unsupported type 99. -/
def unrecMsg : List Nat :=
  [0, 0, 0, 0, 0, 1, 0, 1, 0, 0, 0, 0] ++
  [1, 98, 0, 0, 1, 0, 1] ++
  [1, 98, 0, 0, 99, 0, 1, 0, 0, 0, 0, 0, 0]

/-- The domainname accumulation of the label loop: append each label,
preceded by a dot when the accumulated name is nonempty. -/
def joinAcc (acc : List Nat) (ls : List (List Nat)) : List Nat :=
  ls.foldl (fun a p => (if a.isEmpty then a else a ++ [46]) ++ p) acc

/-- Labels each preceded by a dot. -/
def dotLabels : List (List Nat) → List Nat
  | [] => []
  | p :: t => 46 :: p ++ dotLabels t

/-- Claim C1 (code_bug): the spec says name decoding follows at most 20
label/pointer steps in total and that longer pointer chains, in
particular loops, fail deterministically.  The code restarts the
20-step counter at every pointer recursion: on the self-pointer message
the decode returns none for every fuel (the source recurses without
bound), while a chain of 21 pointers decodes successfully. -/
theorem c1_pointer_loop :
    (∀ fuel, DNS_readDomain loopMsg fuel 0 = none) ∧
    DNS_readDomain chainMsg 25 0 = some ([97], 2) := by
  constructor
  · intro fuel
    induction fuel with
    | zero => decide
    | succ n ih =>
      have h1 : DNS_readDomain loopMsg (n + 1) 0 =
          match DNS_readDomain loopMsg n 0 with
          | none => none
          | some (sub, _) => some (sub, 2) := rfl
      rw [h1, ih]
  · decide

/-- Claim C2 counterexample: for host "a" and type A the twelve header
bytes after the length prefix start with 0x30 0x30 (the characters of
the literal string "00"), not with the claimed 0x00 0x00. -/
theorem c2_header_counter :
    substr (buildQuery [97] .A) 2 12 = [48, 48, 1, 0, 0, 1, 0, 0, 0, 0, 0, 0] ∧
    substr (buildQuery [97] .A) 2 12 ≠ [0, 0, 1, 0, 0, 1, 0, 0, 0, 0, 0, 0] := by
  exact ⟨by decide, by decide⟩

/-- Claim C2 as amended: for every host and supported record type the
12-byte header after the length prefix is 0x30 0x30 (ASCII "00" as the
query ID), 0x01 (RD=1), 0x00, QDCOUNT=1, ANCOUNT=0, NSCOUNT=0,
ARCOUNT=0. -/
theorem c2_header_amended (host : List Nat) (rt : RecordType) :
    substr (buildQuery host rt) 2 12 = [48, 48, 1, 0, 0, 1, 0, 0, 0, 0, 0, 0] := rfl

/-- Claim C3 (code_bug): on an MX response with a matching additional A
record the glue join throws a TypeError, because DNS_readRec leaves the
MX address slot undefined, the strict === null test fails, and the
array append dereferences undefined; without a matching A record the
delivered MX element has address undefined (the field is absent), not
null. -/
theorem c3_mx_glue_typeerror :
    DNS_getRDData msgC3 1 [] 0 = .thrown msgTypeErr ∧
    DNS_getRDData msgC3b 1 [] 0 = .ok (.deliver [.mxObj 10 [98] .undef]) := by
  exact ⟨by decide, by decide⟩

/-- Claim C10: whenever DNS_readRec returns, the final cursor equals the
position right after the name plus the 10 fixed bytes plus the declared
RDLENGTH, independent of the record type and of how many bytes the
type-specific decoding consumed. -/
theorem c10_cursor (fuel : Nat) (str : List Nat) (idx : Nat) (rec : DnsRec) (idx2 : Nat)
    (h : DNS_readRec str fuel idx = some (rec, idx2)) :
    ∃ d di, DNS_readDomain str fuel idx = some (d, di) ∧
      idx2 = di + 10 + DNS_strToWord (substr str (di + 8) 2) := by
  unfold DNS_readRec at h
  cases hd : DNS_readDomain str fuel idx with
  | none => rw [hd] at h; cases h
  | some p =>
    obtain ⟨d, di⟩ := p
    rw [hd] at h
    refine ⟨d, di, rfl, ?_⟩
    dsimp only at h
    split at h
    · injection h with h1; injection h1 with h2 h3; omega
    · split at h
      · injection h with h1; injection h1 with h2 h3; omega
      · split at h
        · split at h
          · cases h
          · injection h with h1; injection h1 with h2 h3; omega
        · split at h
          · split at h
            · cases h
            · injection h with h1; injection h1 with h2 h3; omega
          · split at h
            · split at h
              · cases h
              · injection h with h1; injection h1 with h2 h3; omega
            · split at h
              · injection h with h1; injection h1 with h2 h3; omega
              · injection h with h1; injection h1 with h2 h3; omega

/-- Witness for C10 at a concrete A record. -/
theorem c10_cursor_witness :
    ∃ d di, DNS_readDomain wstrC10 1 0 = some (d, di) ∧
      17 = di + 10 + DNS_strToWord (substr wstrC10 (di + 8) 2) :=
  c10_cursor 1 wstrC10 0 recC10 17 (by decide)

/-- Claim C7: when the pool pick succeeds, the connection closes with
success status, and the listener never completes the framed message,
the whole lookup fails with IncompleteResponse naming that server and
issues no further query - the trace is the single pool send, even
though further pool entries may be alive. -/
theorem c7_incomplete (net : List Nat → List Nat → NetResult) (fuel : Nat)
    (server : Option (List Nat)) (host : List Nat) (rt : RecordType) (hops : Nat)
    (ss : List ServerEntry) (i : Nat) (e : ServerEntry) (chunks : List (List Nat))
    (hp : pickAlive ss = some (i, e)) (hh : hops ≠ 10)
    (hn : net e.server (buildQuery host rt) = .ok chunks)
    (hl : (runListener initListener chunks).2 = none) :
    queryDNSRecursive net (fuel + 1) server host rt hops (some ss) =
      (.cbNull (some (.incompleteResponse e.server)), [.sentPool i e.server hops]) := by
  have hhc : handleChunks (fuel + 1) e.server hops chunks = .incomplete := by
    unfold handleChunks
    rcases hrl : runListener initListener chunks with ⟨l2, om⟩
    rw [hrl] at hl
    simp only at hl
    subst hl
    rfl
  simp only [queryDNSRecursive]
  rw [hp]
  simp only [if_neg hh]
  rw [hn]
  dsimp only
  rw [hhc]

/-- Witness for C7: a pool whose server closes the stream after one byte. -/
theorem c7_incomplete_witness :
    queryDNSRecursive shortNet 3 none [104] .A 0 (some poolA) =
      (.cbNull (some (.incompleteResponse [97])), [.sentPool 0 [97] 0]) :=
  c7_incomplete shortNet 2 none [104] .A 0 poolA 0 ⟨[97], true⟩ [[0]]
    (by decide) (by decide) rfl rfl

/-- Claim C8: a response whose question count is not 1, or one of whose
section counts exceeds 128, or whose answer section parses a record of
an unsupported type, makes DNS_getRDData throw (the error the spec
calls InvalidResponse); the driver then ends the lookup with that
exception after the single send, and no result list is delivered. -/
theorem c8_invalid_response (str : List Nat) (fuel : Nat) (srv : List Nat) (hops : Nat) :
    (DNS_strToWord (substr str 4 2) ≠ 1 →
      DNS_getRDData str fuel srv hops = .thrown msgBadQcount) ∧
    (DNS_strToWord (substr str 4 2) = 1 → 128 < DNS_strToWord (substr str 6 2) →
      DNS_getRDData str fuel srv hops = .thrown msgBadAn) ∧
    (DNS_strToWord (substr str 4 2) = 1 → DNS_strToWord (substr str 6 2) ≤ 128 →
      128 < DNS_strToWord (substr str 8 2) →
      DNS_getRDData str fuel srv hops = .thrown msgBadAu) ∧
    (DNS_strToWord (substr str 4 2) = 1 → DNS_strToWord (substr str 6 2) ≤ 128 →
      DNS_strToWord (substr str 8 2) ≤ 128 → 128 < DNS_strToWord (substr str 10 2) →
      DNS_getRDData str fuel srv hops = .thrown msgBadAd) ∧
    (∀ n idx acc rec idx2, DNS_readRec str fuel idx = some (rec, idx2) →
      rec.recognized = false →
      answersLoop str fuel (n + 1) idx acc = .thrown msgUnrecognized) ∧
    (∀ i1 m, DNS_strToWord (substr str 4 2) = 1 → DNS_strToWord (substr str 6 2) ≤ 128 →
      DNS_strToWord (substr str 8 2) ≤ 128 → DNS_strToWord (substr str 10 2) ≤ 128 →
      readQuestionsLoop str fuel 1 12 = some i1 →
      answersLoop str fuel (DNS_strToWord (substr str 6 2)) i1 [] = .thrown m →
      DNS_getRDData str fuel srv hops = .thrown m) ∧
    (∀ m rs, DNS_getRDData str fuel srv hops = .thrown m →
      DNS_getRDData str fuel srv hops ≠ .ok (.deliver rs)) ∧
    (∀ (net : List Nat → List Nat → NetResult) fuel2 host rt chunks l2 m2 a,
      hops ≠ 10 → net srv (buildQuery host rt) = .ok chunks →
      runListener initListener chunks = (l2, some m2) →
      DNS_getRDData m2 (fuel2 + 1) srv hops = .thrown a →
      queryDNSRecursive net (fuel2 + 1) (some srv) host rt hops none =
        (.thrown a, [.sentFixed srv hops])) := by
  refine ⟨?_, ?_, ?_, ?_, ?_, ?_, ?_, ?_⟩
  · intro h1
    unfold DNS_getRDData
    simp [h1]
  · intro h1 h2
    unfold DNS_getRDData
    simp [h1, h2]
  · intro h1 h2 h3
    unfold DNS_getRDData
    simp [h1, Nat.not_lt.mpr h2, h3]
  · intro h1 h2 h3 h4
    unfold DNS_getRDData
    simp [h1, Nat.not_lt.mpr h2, Nat.not_lt.mpr h3, h4]
  · intro n idx acc rec idx2 hrec hur
    unfold answersLoop
    rw [hrec]
    simp [hur]
  · intro i1 m h1 h2 h3 h4 h5 h6
    unfold DNS_getRDData
    simp only [h1, Nat.not_lt.mpr h2, Nat.not_lt.mpr h3, Nat.not_lt.mpr h4,
      if_false, ite_false, if_neg]
    rw [if_neg (by simp : ¬(1 : Nat) ≠ 1)]
    rw [h5]
    dsimp only
    rw [h6]
  · intro m rs h1
    rw [h1]
    intro h2
    cases h2
  · intro net fuel2 host rt chunks l2 m2 a hh hn hrl hg
    have hhc : handleChunks (fuel2 + 1) srv hops chunks = .parsed (.thrown a) := by
      unfold handleChunks
      rw [hrl]
      dsimp only
      rw [hg]
    simp only [queryDNSRecursive]
    simp only [if_neg hh]
    rw [hn]
    dsimp only
    rw [hhc]

/-- Witness for C8: a response with QDCOUNT=2 and a response carrying an
answer record of type 99. -/
theorem c8_invalid_response_witness :
    DNS_getRDData badQdMsg 1 [] 0 = .thrown msgBadQcount ∧
    DNS_getRDData unrecMsg 1 [] 0 = .thrown msgUnrecognized :=
  ⟨(c8_invalid_response badQdMsg 1 [] 0).1 (by decide),
   (c8_invalid_response unrecMsg 1 [] 0).2.2.2.2.2.1 19 msgUnrecognized
     (by decide) (by decide) (by decide) (by decide) (by decide) (by decide)⟩

theorem pickAlive_isAlive :
    ∀ (ss : List ServerEntry) (i : Nat) (e : ServerEntry),
      pickAlive ss = some (i, e) → ss[i]? = some e ∧ e.alive = true := by
  intro ss
  induction ss with
  | nil => intro i e h; cases h
  | cons x xs ih =>
    intro i e h
    unfold pickAlive at h
    by_cases hx : x.alive
    · rw [if_pos hx] at h
      injection h with h1
      injection h1 with h2 h3
      subst h2; subst h3
      exact ⟨by simp, hx⟩
    · rw [if_neg hx] at h
      rcases hp : pickAlive xs with _ | ⟨j, f⟩
      · rw [hp] at h; cases h
      · rw [hp] at h
        simp only [Option.map_some'] at h
        injection h with h1
        injection h1 with h2 h3
        subst h2; subst h3
        simpa using ih j f hp

theorem pickAlive_le :
    ∀ (ss : List ServerEntry) (i : Nat) (e : ServerEntry) (j : Nat),
      pickAlive ss = some (i, e) → isAliveAt ss j → i ≤ j := by
  intro ss
  induction ss with
  | nil =>
    intro i e j _ hj
    obtain ⟨f, hf, _⟩ := hj
    simp at hf
  | cons x xs ih =>
    intro i e j h hj
    unfold pickAlive at h
    by_cases hx : x.alive
    · rw [if_pos hx] at h
      injection h with h1
      injection h1 with h2 h3
      omega
    · rw [if_neg hx] at h
      rcases hp : pickAlive xs with _ | ⟨j2, f⟩
      · rw [hp] at h; cases h
      · rw [hp] at h
        simp only [Option.map_some'] at h
        injection h with h1
        injection h1 with h2 h3
        subst h2
        cases j with
        | zero =>
          obtain ⟨g, hg, hga⟩ := hj
          simp only [List.getElem?_cons_zero] at hg
          injection hg with hg2
          subst hg2
          exact absurd hga hx
        | succ k =>
          obtain ⟨g, hg, hga⟩ := hj
          simp only [List.getElem?_cons_succ] at hg
          have := ih j2 f k hp ⟨g, hg, hga⟩
          omega

theorem aliveAt_markDead :
    ∀ (ss : List ServerEntry) (i j : Nat),
      isAliveAt (markDead ss i) j → isAliveAt ss j ∧ j ≠ i := by
  intro ss
  induction ss with
  | nil =>
    intro i j hj
    obtain ⟨f, hf, _⟩ := hj
    simp [markDead] at hf
  | cons x xs ih =>
    intro i j hj
    cases i with
    | zero =>
      cases j with
      | zero =>
        obtain ⟨f, hf, hfa⟩ := hj
        simp only [markDead, List.getElem?_cons_zero] at hf
        injection hf with hf2
        subst hf2
        simp at hfa
      | succ k =>
        obtain ⟨f, hf, hfa⟩ := hj
        simp only [markDead, List.getElem?_cons_succ] at hf
        exact ⟨⟨f, by simpa using hf, hfa⟩, by omega⟩
    | succ m =>
      cases j with
      | zero =>
        obtain ⟨f, hf, hfa⟩ := hj
        simp only [markDead, List.getElem?_cons_zero] at hf
        exact ⟨⟨f, by simpa using hf, hfa⟩, by omega⟩
      | succ k =>
        obtain ⟨f, hf, hfa⟩ := hj
        simp only [markDead, List.getElem?_cons_succ] at hf
        obtain ⟨h1, h2⟩ := ih m k ⟨f, hf, hfa⟩
        obtain ⟨g, hg, hga⟩ := h1
        exact ⟨⟨g, by simpa using hg, hga⟩, by omega⟩

theorem aliveCount_markDead :
    ∀ (ss : List ServerEntry) (i : Nat) (e : ServerEntry),
      pickAlive ss = some (i, e) → aliveCount (markDead ss i) + 1 = aliveCount ss := by
  intro ss
  induction ss with
  | nil => intro i e h; cases h
  | cons x xs ih =>
    intro i e h
    unfold pickAlive at h
    by_cases hx : x.alive
    · rw [if_pos hx] at h
      injection h with h1
      injection h1 with h2 h3
      subst h2
      simp [markDead, aliveCount, List.countP_cons, hx]
    · rw [if_neg hx] at h
      rcases hp : pickAlive xs with _ | ⟨j, f⟩
      · rw [hp] at h; cases h
      · rw [hp] at h
        simp only [Option.map_some'] at h
        injection h with h1
        injection h1 with h2 h3
        subst h2
        have := ih j f hp
        simp only [markDead, aliveCount, List.countP_cons] at *
        simp [hx]
        omega

theorem markDead_server_mem :
    ∀ (ss : List ServerEntry) (i : Nat) (x : ServerEntry),
      x ∈ markDead ss i → ∃ y ∈ ss, x.server = y.server := by
  intro ss
  induction ss with
  | nil => intro i x hx; simp [markDead] at hx
  | cons e es ih =>
    intro i x hx
    cases i with
    | zero =>
      simp only [markDead, List.mem_cons] at hx
      rcases hx with rfl | hx
      · exact ⟨e, List.mem_cons_self e es, rfl⟩
      · exact ⟨x, List.mem_cons_of_mem e hx, rfl⟩
    | succ m =>
      simp only [markDead, List.mem_cons] at hx
      rcases hx with rfl | hx
      · exact ⟨x, List.mem_cons_self x es, rfl⟩
      · obtain ⟨y, hy, hxy⟩ := ih m x hx
        exact ⟨y, List.mem_cons_of_mem e hy, hxy⟩

theorem getRDData_recurse_hops (str : List Nat) (fuel : Nat) (srv : List Nat) (hops : Nat)
    (ns : List Nat) (h2 : Nat)
    (h : DNS_getRDData str fuel srv hops = .ok (.recurse ns h2)) : h2 = hops + 1 := by
  unfold DNS_getRDData at h
  dsimp only at h
  repeat' split at h
  all_goals injections
  all_goals omega

theorem handleChunks_parsed_inv (fuel : Nat) (srv : List Nat) (hops : Nat)
    (chunks : List (List Nat)) (r : Res GetAction)
    (h : handleChunks fuel srv hops chunks = .parsed r) :
    ∃ l2 m2, runListener initListener chunks = (l2, some m2) ∧
      r = DNS_getRDData m2 fuel srv hops := by
  unfold handleChunks at h
  rcases hr : runListener initListener chunks with ⟨l2, om⟩
  rw [hr] at h
  cases om with
  | none => injection h
  | some m2 =>
    refine ⟨l2, m2, rfl, ?_⟩
    injection h with hx
    exact hx.symm

theorem poolIdxs_nil_of_fixed (net : List Nat → List Nat → NetResult) :
    ∀ (fuel : Nat) (server : Option (List Nat)) (host : List Nat) (rt : RecordType)
      (hops : Nat),
      poolIdxs (queryDNSRecursive net fuel server host rt hops none).2 = [] := by
  intro fuel
  induction fuel with
  | zero => intro server host rt hops; rfl
  | succ n ih =>
    intro server host rt hops
    rcases server with _ | srv
    · rfl
    · by_cases hh : hops = 10
      · simp only [queryDNSRecursive, if_pos hh]
        rfl
      · simp only [queryDNSRecursive, if_neg hh]
        rcases hn : net srv (buildQuery host rt) with st | chunks
        · rfl
        · dsimp only
          rcases hc : handleChunks (n + 1) srv hops chunks with _ | r
          · rfl
          · rcases r with _ | m | a
            · rfl
            · rfl
            · rcases a with rs | _ | ⟨ns, h2⟩
              · rfl
              · rfl
              · dsimp only
                simp only [poolIdxs]
                exact ih (some ns) host rt h2

theorem c5_trace_aux (net : List Nat → List Nat → NetResult) :
    ∀ (fuel : Nat) (server : Option (List Nat)) (host : List Nat) (rt : RecordType)
      (hops : Nat) (servers : Option (List ServerEntry)), hops ≤ 10 →
      ∀ ev ∈ (queryDNSRecursive net fuel server host rt hops servers).2, evOk ev = true := by
  intro fuel
  induction fuel with
  | zero =>
    intro server host rt hops servers hle ev hev
    simp [queryDNSRecursive] at hev
  | succ n ih =>
    intro server host rt hops servers hle ev hev
    rcases servers with _ | ss
    · rcases server with _ | srv
      · simp [queryDNSRecursive] at hev
      · by_cases hh : hops = 10
        · simp [queryDNSRecursive, if_pos hh] at hev
        · simp only [queryDNSRecursive, if_neg hh] at hev
          rcases hn : net srv (buildQuery host rt) with st | chunks
          all_goals try rw [hn] at hev
          · simp at hev
            subst hev
            simp only [evOk, decide_eq_true_eq]
            omega
          · simp only [] at hev
            rcases hc : handleChunks (n + 1) srv hops chunks with _ | r
            all_goals try rw [hc] at hev
            · simp at hev
              subst hev
              simp only [evOk, decide_eq_true_eq]
              omega
            · rcases r with _ | m | a
              · simp at hev
                subst hev
                simp only [evOk, decide_eq_true_eq]
                omega
              · simp at hev
                subst hev
                simp only [evOk, decide_eq_true_eq]
                omega
              · rcases a with rs | _ | ⟨ns, h2⟩
                · simp at hev
                  subst hev
                  simp only [evOk, decide_eq_true_eq]
                  omega
                · simp at hev
                  subst hev
                  simp only [evOk, decide_eq_true_eq]
                  omega
                · have hh2 : h2 = hops + 1 := by
                    obtain ⟨l2, m2, hrl, hr⟩ := handleChunks_parsed_inv _ _ _ _ _ hc
                    exact getRDData_recurse_hops _ _ _ _ _ _ hr.symm
                  simp only [] at hev
                  rcases List.mem_cons.mp hev with rfl | hev2
                  · simp only [evOk, decide_eq_true_eq]
                    omega
                  · rcases List.mem_cons.mp hev2 with rfl | hev3
                    · simp only [evOk, Bool.and_eq_true, decide_eq_true_eq]
                      omega
                    · exact ih (some ns) host rt h2 none (by omega) ev hev3
    · simp only [queryDNSRecursive] at hev
      rcases hp : pickAlive ss with _ | p
      all_goals try rw [hp] at hev
      · simp at hev
      · rcases p with ⟨i, e⟩
        simp only [] at hev
        by_cases hh : hops = 10
        · rw [if_pos hh] at hev
          simp at hev
        · rw [if_neg hh] at hev
          rcases hn : net e.server (buildQuery host rt) with st | chunks
          all_goals try rw [hn] at hev
          · simp only [] at hev
            rcases List.mem_cons.mp hev with rfl | hev2
            · simp only [evOk, decide_eq_true_eq]
              omega
            · rcases List.mem_cons.mp hev2 with rfl | hev3
              · simp only [evOk, decide_eq_true_eq]
                omega
              · exact ih none host rt hops (some (markDead ss i)) hle ev hev3
          · simp only [] at hev
            rcases hc : handleChunks (n + 1) e.server hops chunks with _ | r
            all_goals try rw [hc] at hev
            · simp at hev
              subst hev
              simp only [evOk, decide_eq_true_eq]
              omega
            · rcases r with _ | m | a
              · simp at hev
                subst hev
                simp only [evOk, decide_eq_true_eq]
                omega
              · simp at hev
                subst hev
                simp only [evOk, decide_eq_true_eq]
                omega
              · rcases a with rs | _ | ⟨ns, h2⟩
                · simp at hev
                  subst hev
                  simp only [evOk, decide_eq_true_eq]
                  omega
                · simp at hev
                  subst hev
                  simp only [evOk, decide_eq_true_eq]
                  omega
                · have hh2 : h2 = hops + 1 := by
                    obtain ⟨l2, m2, hrl, hr⟩ := handleChunks_parsed_inv _ _ _ _ _ hc
                    exact getRDData_recurse_hops _ _ _ _ _ _ hr.symm
                  simp only [] at hev
                  rcases List.mem_cons.mp hev with rfl | hev2
                  · simp only [evOk, decide_eq_true_eq]
                    omega
                  · rcases List.mem_cons.mp hev2 with rfl | hev3
                    · simp only [evOk, Bool.and_eq_true, decide_eq_true_eq]
                      omega
                    · exact ih (some ns) host rt h2 none (by omega) ev hev3

/-- Claim C5: entering the state machine with hop counter 10 fails with
TooManyHops (whether the query uses a fixed referral server or a pool
with an alive entry); a transport failover re-enters with the hop
counter unchanged; and starting from any hop count at most 10 every
recorded event satisfies the hop invariant: every referral increments
the counter by exactly one and stays at most 10, and every query is
sent with hop counter at most 9, so a lookup started at 0 issues at
most 10 referrals. -/
theorem c5_hop_bound (net : List Nat → List Nat → NetResult) (fuel : Nat)
    (server : Option (List Nat)) (host : List Nat) (rt : RecordType) (hops : Nat)
    (servers : Option (List ServerEntry)) :
    ((hops = 10 → ∀ srv, servers = none → server = some srv →
        queryDNSRecursive net (fuel + 1) server host rt hops servers =
          (.cbNull (some .tooManyHops), [])) ∧
     (hops = 10 → ∀ ss i e, servers = some ss → pickAlive ss = some (i, e) →
        queryDNSRecursive net (fuel + 1) server host rt hops servers =
          (.cbNull (some .tooManyHops), []))) ∧
    (∀ ss i e st, servers = some ss → pickAlive ss = some (i, e) → hops ≠ 10 →
       net e.server (buildQuery host rt) = .err st →
       (queryDNSRecursive net (fuel + 1) server host rt hops servers).1 =
         (queryDNSRecursive net fuel none host rt hops (some (markDead ss i))).1) ∧
    (hops ≤ 10 → ∀ ev ∈ (queryDNSRecursive net fuel server host rt hops servers).2,
       evOk ev = true) := by
  refine ⟨⟨?_, ?_⟩, ?_, ?_⟩
  · intro h10 srv hse hsv
    subst h10; subst hse; subst hsv
    simp [queryDNSRecursive]
  · intro h10 ss i e hse hp
    subst h10; subst hse
    simp only [queryDNSRecursive]
    rw [hp]
    simp
  · intro ss i e st hse hp hh hn
    subst hse
    simp only [queryDNSRecursive]
    rw [hp]
    simp only [] 
    rw [if_neg hh, hn]
  · exact c5_trace_aux net fuel server host rt hops servers

/-- Witness for C5: a pool query entered at hop count 10 fails with
TooManyHops, and the events of a concrete failing lookup started at 0
all satisfy the hop invariant. -/
theorem c5_hop_bound_witness :
    queryDNSRecursive errNet 3 none [104] .A 10 (some poolA) =
      (.cbNull (some .tooManyHops), []) ∧
    evOk (QEvent.sentPool 0 [97] 0) = true :=
  ⟨(c5_hop_bound errNet 2 none [104] .A 10 (some poolA)).1.2 rfl poolA 0 ⟨[97], true⟩
      rfl (by decide),
   (c5_hop_bound errNet 3 none [104] .A 0 (some poolA)).2.2 (by decide)
      (QEvent.sentPool 0 [97] 0) (by decide)⟩

theorem c6_pool_aux (net : List Nat → List Nat → NetResult) :
    ∀ (fuel : Nat) (server : Option (List Nat)) (host : List Nat) (rt : RecordType)
      (hops : Nat) (ss : List ServerEntry),
      List.Pairwise (· < ·)
        (poolIdxs (queryDNSRecursive net fuel server host rt hops (some ss)).2) ∧
      (∀ j ∈ poolIdxs (queryDNSRecursive net fuel server host rt hops (some ss)).2,
        isAliveAt ss j) := by
  intro fuel
  induction fuel with
  | zero =>
    intro server host rt hops ss
    constructor <;> simp [queryDNSRecursive, poolIdxs]
  | succ n ih =>
    intro server host rt hops ss
    simp only [queryDNSRecursive]
    rcases hp : pickAlive ss with _ | ⟨i, e⟩
    · constructor <;> simp [poolIdxs]
    · simp only []
      by_cases hh : hops = 10
      · rw [if_pos hh]
        constructor <;> simp [poolIdxs]
      · rw [if_neg hh]
        rcases hn : net e.server (buildQuery host rt) with st | chunks
        · simp only []
          obtain ⟨ihp, iha⟩ := ih none host rt hops (markDead ss i)
          have hmem : ∀ j ∈ poolIdxs
              (queryDNSRecursive net n none host rt hops (some (markDead ss i))).2,
              isAliveAt ss j ∧ j ≠ i :=
            fun j hj => aliveAt_markDead ss i j (iha j hj)
          have hgt : ∀ j ∈ poolIdxs
              (queryDNSRecursive net n none host rt hops (some (markDead ss i))).2,
              i < j := by
            intro j hj
            have h1 := pickAlive_le ss i e j hp (hmem j hj).1
            have h2 := (hmem j hj).2
            omega
          constructor
          · simp only [poolIdxs]
            exact List.pairwise_cons.mpr ⟨hgt, ihp⟩
          · intro j hj
            simp only [poolIdxs] at hj
            rcases List.mem_cons.mp hj with rfl | hj2
            · exact ⟨e, (pickAlive_isAlive ss j e hp).1, (pickAlive_isAlive ss j e hp).2⟩
            · exact (hmem j hj2).1
        · simp only []
          rcases hc : handleChunks (n + 1) e.server hops chunks with _ | r
          · constructor
            · simp [poolIdxs]
            · intro j hj
              simp only [poolIdxs] at hj
              rcases List.mem_cons.mp hj with rfl | hj2
              · exact ⟨e, (pickAlive_isAlive ss j e hp).1, (pickAlive_isAlive ss j e hp).2⟩
              · simp [poolIdxs] at hj2
          · rcases r with _ | m | a
            · constructor
              · simp [poolIdxs]
              · intro j hj
                simp only [poolIdxs] at hj
                rcases List.mem_cons.mp hj with rfl | hj2
                · exact ⟨e, (pickAlive_isAlive ss j e hp).1, (pickAlive_isAlive ss j e hp).2⟩
                · simp [poolIdxs] at hj2
            · constructor
              · simp [poolIdxs]
              · intro j hj
                simp only [poolIdxs] at hj
                rcases List.mem_cons.mp hj with rfl | hj2
                · exact ⟨e, (pickAlive_isAlive ss j e hp).1, (pickAlive_isAlive ss j e hp).2⟩
                · simp [poolIdxs] at hj2
            · rcases a with rs | _ | ⟨ns, h2⟩
              · constructor
                · simp [poolIdxs]
                · intro j hj
                  simp only [poolIdxs] at hj
                  rcases List.mem_cons.mp hj with rfl | hj2
                  · exact ⟨e, (pickAlive_isAlive ss j e hp).1, (pickAlive_isAlive ss j e hp).2⟩
                  · simp [poolIdxs] at hj2
              · constructor
                · simp [poolIdxs]
                · intro j hj
                  simp only [poolIdxs] at hj
                  rcases List.mem_cons.mp hj with rfl | hj2
                  · exact ⟨e, (pickAlive_isAlive ss j e hp).1, (pickAlive_isAlive ss j e hp).2⟩
                  · simp [poolIdxs] at hj2
              · have hnil := poolIdxs_nil_of_fixed net n (some ns) host rt h2
                constructor
                · simp [poolIdxs, hnil]
                · intro j hj
                  simp only [poolIdxs] at hj
                  rw [hnil] at hj
                  rcases List.mem_cons.mp hj with rfl | hj2
                  · exact ⟨e, (pickAlive_isAlive ss j e hp).1, (pickAlive_isAlive ss j e hp).2⟩
                  · simp at hj2

/-- Claim C6: a transport-level failure of the picked pool entry marks
exactly that entry not-alive and re-runs the query on the updated pool
with the hop counter unchanged (the next alive entry in pool order is
then picked); and in every lookup over a pool the indices of the pool
entries actually queried are strictly increasing and always alive in
the starting pool, so an entry marked not-alive during the lookup is
never queried again. -/
theorem c6_failover_pool (net : List Nat → List Nat → NetResult) (fuel : Nat)
    (server : Option (List Nat)) (host : List Nat) (rt : RecordType) (hops : Nat)
    (ss : List ServerEntry) :
    (∀ i e st, pickAlive ss = some (i, e) → hops ≠ 10 →
       net e.server (buildQuery host rt) = .err st →
       queryDNSRecursive net (fuel + 1) server host rt hops (some ss) =
         ((queryDNSRecursive net fuel none host rt hops (some (markDead ss i))).1,
          .sentPool i e.server hops :: .failover hops ::
            (queryDNSRecursive net fuel none host rt hops (some (markDead ss i))).2)) ∧
    List.Pairwise (· < ·)
      (poolIdxs (queryDNSRecursive net fuel server host rt hops (some ss)).2) ∧
    (∀ j ∈ poolIdxs (queryDNSRecursive net fuel server host rt hops (some ss)).2,
      isAliveAt ss j) := by
  refine ⟨?_, (c6_pool_aux net fuel server host rt hops ss).1,
    (c6_pool_aux net fuel server host rt hops ss).2⟩
  intro i e st hp hh hn
  simp only [queryDNSRecursive]
  rw [hp]
  simp only []
  rw [if_neg hh, hn]

/-- Witness for C6: pool of two servers, first connection fails. -/
theorem c6_failover_pool_witness :
    queryDNSRecursive errNet 3 none [104] .A 0 (some poolAB) =
      ((queryDNSRecursive errNet 2 none [104] .A 0 (some (markDead poolAB 0))).1,
       .sentPool 0 [97] 0 :: .failover 0 ::
         (queryDNSRecursive errNet 2 none [104] .A 0 (some (markDead poolAB 0))).2) ∧
    List.Pairwise (· < ·)
      (poolIdxs (queryDNSRecursive errNet 3 none [104] .A 0 (some poolAB)).2) :=
  ⟨(c6_failover_pool errNet 2 none [104] .A 0 poolAB).1 0 ⟨[97], true⟩ 7
      (by decide) (by decide) rfl,
   (c6_failover_pool errNet 3 none [104] .A 0 poolAB).2.1⟩

theorem c9_pool_aux (net : List Nat → List Nat → NetResult) (host : List Nat)
    (rt : RecordType) :
    ∀ (fuel : Nat) (server : Option (List Nat)) (hops : Nat) (ss : List ServerEntry),
      hops ≤ 9 → aliveCount ss < fuel →
      (∀ x ∈ ss, ∃ c, net x.server (buildQuery host rt) = .err c) →
      (queryDNSRecursive net fuel server host rt hops (some ss)).1 =
        .cbNull (some .noServerAlive) := by
  intro fuel
  induction fuel with
  | zero =>
    intro server hops ss hle hc hall
    omega
  | succ n ih =>
    intro server hops ss hle hc hall
    simp only [queryDNSRecursive]
    rcases hp : pickAlive ss with _ | ⟨i, e⟩
    · rfl
    · simp only []
      rw [if_neg (by omega : ¬hops = 10)]
      have he := pickAlive_isAlive ss i e hp
      have hmem : e ∈ ss := List.getElem?_mem he.1
      obtain ⟨c, hcerr⟩ := hall e hmem
      rw [hcerr]
      have hcnt := aliveCount_markDead ss i e hp
      have hall2 : ∀ x ∈ markDead ss i, ∃ c2, net x.server (buildQuery host rt) = .err c2 := by
        intro x hx
        obtain ⟨y, hy, hxy⟩ := markDead_server_mem ss i x hx
        obtain ⟨c2, hc2⟩ := hall y hy
        exact ⟨c2, by rw [hxy]; exact hc2⟩
      exact ih none hops (markDead ss i) hle (by omega) hall2

/-- Claim C9 counterexample: a pool holding a single server whose
connection is refused does not surface ConnectionRefused; failover
consumes the failure and the exhausted pool surfaces NoServerAlive. -/
theorem c9_single_pool_counter :
    (queryDNSRecursive refusedNet 3 none [104] .A 0 (some poolA)).1 =
      .cbNull (some .noServerAlive) ∧
    (queryDNSRecursive refusedNet 3 none [104] .A 0 (some poolA)).1 ≠
      .cbNull (some (.connectionRefused [97])) := by
  exact ⟨by decide, by decide⟩

/-- Claim C9 as amended: ConnectionRefused, Timeout and ServerError are
surfaced exactly when the failing query was issued without a server
pool, i.e. to a fixed referral server (the source tests servers ===
undefined, not the pool size); when a pool is in use, every
transport-level failure is consumed by failover regardless of pool
size, and a pool whose alive entries all fail ends in NoServerAlive. -/
theorem c9_surfacing_amended (net : List Nat → List Nat → NetResult) (fuel : Nat)
    (host : List Nat) (rt : RecordType) (hops : Nat) (srv : List Nat) (st : Nat) :
    (hops ≠ 10 → net srv (buildQuery host rt) = .err st →
      queryDNSRecursive net (fuel + 1) (some srv) host rt hops none =
        (.cbNull (some (statusToErr st srv)), [.sentFixed srv hops])) ∧
    (∀ (server : Option (List Nat)) (ss : List ServerEntry), hops ≤ 9 →
      aliveCount ss < fuel →
      (∀ x ∈ ss, ∃ c, net x.server (buildQuery host rt) = .err c) →
      (queryDNSRecursive net fuel server host rt hops (some ss)).1 =
        .cbNull (some .noServerAlive)) := by
  constructor
  · intro hh hn
    simp only [queryDNSRecursive]
    rw [if_neg hh, hn]
  · intro server ss hle hc hall
    exact c9_pool_aux net host rt fuel server hops ss hle hc hall

/-- Witness for C9: the refused referral query surfaces
ConnectionRefused, and the all-refusing pool ends in NoServerAlive. -/
theorem c9_surfacing_witness :
    queryDNSRecursive refusedNet 2 (some [99]) [104] .A 0 none =
      (.cbNull (some (statusToErr 2152398861 [99])), [.sentFixed [99] 0]) ∧
    (queryDNSRecursive refusedNet 2 none [104] .A 0 (some poolA)).1 =
      .cbNull (some .noServerAlive) :=
  ⟨(c9_surfacing_amended refusedNet 1 [104] .A 0 [99] 2152398861).1 (by decide) rfl,
   (c9_surfacing_amended refusedNet 2 [104] .A 0 [99] 2152398861).2 none poolA
     (by decide) (by decide) (fun x hx => ⟨2152398861, rfl⟩)⟩

theorem word_round (w : Nat) (h : w < 65536) : DNS_strToWord (DNS_wordToStr w) = w := by
  simp only [DNS_strToWord, DNS_wordToStr, DNS_octetToStr, charCodeAt]
  simp
  omega

theorem joinAcc_append :
    ∀ (ls : List (List Nat)) (acc : List Nat), acc ≠ [] →
      joinAcc acc ls = acc ++ dotLabels ls := by
  intro ls
  induction ls with
  | nil => intro acc h; simp [joinAcc, dotLabels]
  | cons p t ih =>
    intro acc h
    have h2 : acc.isEmpty = false := by
      cases acc with
      | nil => exact absurd rfl h
      | cons a as => rfl
    show joinAcc ((if acc.isEmpty then acc else acc ++ [46]) ++ p) t = acc ++ dotLabels (p :: t)
    rw [h2]
    simp only [Bool.false_eq_true, if_false]
    rw [ih (acc ++ [46] ++ p) (by simp)]
    simp [dotLabels, List.append_assoc]

theorem intercalate_dot :
    ∀ (t : List (List Nat)) (l : List Nat),
      List.intercalate [46] (l :: t) = l ++ dotLabels t := by
  intro t
  induction t with
  | nil => intro l; simp [List.intercalate, dotLabels]
  | cons b t2 ih =>
    intro l
    have hb := ih b
    simp only [List.intercalate] at hb ⊢
    rw [List.intersperse_cons_cons]
    simp only [List.flatten_cons]
    rw [show List.flatten (List.intersperse [46] (b :: t2)) =
        List.intercalate [46] (b :: t2) from rfl]
    rw [ih b]
    simp [dotLabels, List.append_assoc]

theorem joinAcc_splitOn (host : List Nat)
    (h1 : ∀ p ∈ host.splitOn 46, p ≠ []) :
    joinAcc [] (host.splitOn 46) = host := by
  have hin := List.intercalate_splitOn host 46
  rcases hsp : host.splitOn 46 with _ | ⟨l, t⟩
  · exact absurd hsp (by unfold List.splitOn; exact List.splitOnP_ne_nil _ _)
  · rw [hsp] at hin
    have hl : l ≠ [] := by
      apply h1
      rw [hsp]
      exact List.mem_cons_self l t
    have hstep : joinAcc [] (l :: t) = l ++ dotLabels t := by
      have : joinAcc [] (l :: t) = joinAcc l t := rfl
      rw [this, joinAcc_append t l hl]
    rw [hstep, ← intercalate_dot t l]
    exact hin

theorem readLabels_encode (str : List Nat) (rp : Nat → Option (List Nat × Nat)) :
    ∀ (ls : List (List Nat)) (ctr idx : Nat) (acc : List Nat) (rest : List Nat),
      (∀ p ∈ ls, 1 ≤ p.length ∧ p.length ≤ 63) →
      ls.length < ctr →
      str.drop idx = qnameEnc ls ++ 0 :: rest →
      readLabels str rp ctr idx acc =
        some (joinAcc acc ls, idx + (qnameEnc ls).length + 1) := by
  intro ls
  induction ls with
  | nil =>
    intro ctr idx acc rest hb hlen hdrop
    cases ctr with
    | zero => omega
    | succ c =>
      have hc : charCodeAt str idx = 0 := by
        simp [charCodeAt, hdrop, qnameEnc]
      simp [readLabels, hc, joinAcc, qnameEnc]
  | cons p t ih =>
    intro ctr idx acc rest hb hlen hdrop
    cases ctr with
    | zero => omega
    | succ c =>
      have hp1 : 1 ≤ p.length := (hb p (List.mem_cons_self p t)).1
      have hp63 : p.length ≤ 63 := (hb p (List.mem_cons_self p t)).2
      have hmod : p.length % 65536 = p.length := Nat.mod_eq_of_lt (by omega)
      have hdrop2 : str.drop idx = p.length :: (p ++ (qnameEnc t ++ 0 :: rest)) := by
        rw [hdrop]
        simp [qnameEnc, DNS_octetToStr, hmod, List.append_assoc]
      have hcc : charCodeAt str idx = p.length := by
        simp [charCodeAt, hdrop2]
      have hdrop1 : str.drop (idx + 1) = p ++ (qnameEnc t ++ 0 :: rest) := by
        have h3 : str.drop (idx + 1) = (str.drop idx).drop 1 := by
          rw [List.drop_drop]
        rw [h3, hdrop2]
        simp
      have hsub : substr str (idx + 1) p.length = p := by
        simp only [substr, hdrop1]
        exact List.take_left' rfl
      have hdropnext : str.drop (idx + 1 + p.length) = qnameEnc t ++ 0 :: rest := by
        have h3 : str.drop (idx + 1 + p.length) = (str.drop (idx + 1)).drop p.length := by
          rw [List.drop_drop]
        rw [h3, hdrop1]
        exact List.drop_left' rfl
      have hne : ¬(charCodeAt str idx = 0) := by omega
      have hdiv : ¬(charCodeAt str idx / 64 = 3) := by
        rw [hcc]
        have : p.length / 64 = 0 := Nat.div_eq_of_lt (by omega)
        omega
      simp only [readLabels]
      rw [if_neg hne, if_neg hdiv, hcc, hsub]
      rw [ih c (idx + 1 + p.length) ((if acc.isEmpty then acc else acc ++ [46]) ++ p) rest
        (fun q hq => hb q (List.mem_cons_of_mem p hq))
        (by simp at hlen ⊢; omega) hdropnext]
      have hlen2 : (qnameEnc (p :: t)).length = 1 + p.length + (qnameEnc t).length := by
        simp [qnameEnc, DNS_octetToStr]
        omega
      have hj : joinAcc ((if acc.isEmpty then acc else acc ++ [46]) ++ p) t =
          joinAcc acc (p :: t) := rfl
      rw [hj, hlen2]
      congr 2
      all_goals omega

theorem readDomain_encode (str : List Nat) (fuel : Nat) (ls : List (List Nat))
    (idx : Nat) (rest : List Nat)
    (hb : ∀ p ∈ ls, 1 ≤ p.length ∧ p.length ≤ 63)
    (hlen : ls.length < 20)
    (hdrop : str.drop idx = qnameEnc ls ++ 0 :: rest) :
    DNS_readDomain str fuel idx = some (joinAcc [] ls, idx + (qnameEnc ls).length + 1) := by
  cases fuel with
  | zero => exact readLabels_encode str _ ls 20 idx [] rest hb hlen hdrop
  | succ n => exact readLabels_encode str _ ls 20 idx [] rest hb hlen hdrop

/-- Claim C4 counterexample: for the 20-label host "a.a. ... .a" and
QTYPE A, the 20-step label counter of DNS_readDomain runs out before
the terminating zero byte of the generated question is consumed, so the
decoded QTYPE is 0 (and the class 256), not the encoded values. -/
theorem c4_roundtrip_counter :
    decodeQuestion ((buildQuery host20 .A).drop 2) 1 ≠ some (host20, qtypeNum .A, 1) ∧
    decodeQuestion ((buildQuery host20 .A).drop 2) 1 = some (host20, 0, 256) := by
  exact ⟨by decide, by decide⟩

/-- Claim C4 as amended: for every host whose dot-split has at most 19
labels, each of 1 to 63 bytes, and every supported record type,
decoding the question section of the generated query returns exactly
the original QNAME, QTYPE and class IN. -/
theorem c4_roundtrip_amended (host : List Nat) (rt : RecordType) (fuel : Nat)
    (h1 : ∀ p ∈ host.splitOn 46, 1 ≤ p.length ∧ p.length ≤ 63)
    (h2 : (host.splitOn 46).length ≤ 19) :
    decodeQuestion ((buildQuery host rt).drop 2) fuel = some (host, qtypeNum rt, 1) := by
  have hdrop2 : (buildQuery host rt).drop 2 = buildQueryBody host rt := by
    simp [buildQuery, DNS_wordToStr, DNS_octetToStr]
  rw [hdrop2]
  have hd12 : (buildQueryBody host rt).drop 12 =
      qnameEnc (host.splitOn 46) ++ 0 ::
        (DNS_wordToStr (qtypeNum rt) ++ DNS_wordToStr 1) := by
    simp only [buildQueryBody, List.append_assoc]
    rw [List.drop_left' (by decide : queryHeader.length = 12)]
    simp [DNS_octetToStr]
  have hrd := readDomain_encode (buildQueryBody host rt) fuel (host.splitOn 46) 12
    (DNS_wordToStr (qtypeNum rt) ++ DNS_wordToStr 1) h1 (by omega) hd12
  have hname : joinAcc [] (host.splitOn 46) = host := by
    apply joinAcc_splitOn
    intro p hp hnil
    have := (h1 p hp).1
    rw [hnil] at this
    simp at this
  have hdT : (buildQueryBody host rt).drop
      (12 + (qnameEnc (host.splitOn 46)).length + 1) =
      DNS_wordToStr (qtypeNum rt) ++ DNS_wordToStr 1 := by
    rw [show 12 + (qnameEnc (host.splitOn 46)).length + 1 =
        12 + ((qnameEnc (host.splitOn 46)).length + 1) from by omega]
    rw [← List.drop_drop]
    rw [hd12]
    rw [show qnameEnc (host.splitOn 46) ++ 0 ::
        (DNS_wordToStr (qtypeNum rt) ++ DNS_wordToStr 1) =
        (qnameEnc (host.splitOn 46) ++ [0]) ++
          (DNS_wordToStr (qtypeNum rt) ++ DNS_wordToStr 1) from by simp]
    exact List.drop_left' (by simp)
  have hq16 : qtypeNum rt < 65536 := by cases rt <;> decide
  have htype : DNS_strToWord (substr (buildQueryBody host rt)
      (12 + (qnameEnc (host.splitOn 46)).length + 1) 2) = qtypeNum rt := by
    simp only [substr, hdT]
    rw [List.take_left' (by simp [DNS_wordToStr, DNS_octetToStr] :
      (DNS_wordToStr (qtypeNum rt)).length = 2)]
    exact word_round _ hq16
  have hdC : (buildQueryBody host rt).drop
      (12 + (qnameEnc (host.splitOn 46)).length + 1 + 2) = DNS_wordToStr 1 := by
    rw [← List.drop_drop]
    rw [hdT]
    exact List.drop_left' (by simp [DNS_wordToStr, DNS_octetToStr])
  have hcls : DNS_strToWord (substr (buildQueryBody host rt)
      (12 + (qnameEnc (host.splitOn 46)).length + 1 + 2) 2) = 1 := by
    simp only [substr, hdC]
    rw [show (DNS_wordToStr 1).take 2 = DNS_wordToStr 1 from by decide]
    decide
  unfold decodeQuestion decodeQuestionAt
  rw [hrd]
  simp only [Option.map_some']
  rw [htype, hcls, hname]

/-- Witness for C4 at the host "a.b" and record type MX. -/
theorem c4_roundtrip_witness :
    decodeQuestion ((buildQuery [97, 46, 98] .MX).drop 2) 1 = some ([97, 46, 98], 15, 1) :=
  c4_roundtrip_amended [97, 46, 98] .MX 1 (by decide) (by decide)
